import Mathlib

/-!
Verification development for the `ad_hoc_simulations` repository
(`MAC_simulator/node.py`): the ALOHA MAC policy and the physical-layer
node state machine with its collision detector.

Modelling conventions:
* Python `int` counters that the code decrements (`state_counter`,
  `backoff`, `ack_await_counter`) are `ℤ`; identifiers are `ℕ`;
  message lengths (channel occupancy in ticks) are `ℕ`.
* Node positions are modelled with integer coordinates so that the
  travel-time computation `int(np.sqrt(dx**2 + dy**2))` stays
  computable: at integer coordinates it equals `Nat.sqrt` of the
  squared distance, which is exactly the floor of the real Euclidean
  distance (proved in `travel_time_floor_euclidean`).
* Calls to `randint(1, 16)` are modelled by passing the drawn value as
  an explicit argument; theorems quantify over draws in `[1, 16]`.
* Python stores object references (`Transmission.source`,
  `Node.neighbors`); `t.source in self.neighbors` is identity-based
  list membership, which for nodes with unique ids is membership of
  the source's id.  We therefore model `Transmission.source` as an
  id/coordinate snapshot (`RemoteNode`) and `neighbors` as a list of
  node ids.
* The unused `radius`, `transceive_range` and `send_schedule` fields of
  the Python `Node` dataclass (consumed only by the external topology
  glue `add_neighbors` / `create_new_node`, which no claim touches) are
  omitted from the record.
-/

namespace AdHocSim

/-- The `NodeState` enum of `node.py`. -/
inductive NodeState where
  | Idle
  | Sending
  | Receiving
  | Waiting
deriving DecidableEq, Repr

/-- The `HighLevelMessage` dataclass: an application-level send intent. -/
structure HighLevelMessage where
  target : ℕ
  content : String
  length : ℕ
deriving DecidableEq, Repr

/-- The `Message` dataclass: a wire frame. -/
structure Message where
  target : ℕ
  source : ℕ
  sequence_number : ℤ
  content : String
  length : ℕ
deriving DecidableEq, Repr

/-- Python `Message.get_ack`: `Message(self.source, self.target,
self.sequence_number, 'ack', 1)` — positionally, the ack's `target` is the
frame's `source` and vice versa. -/
def Message.get_ack (m : Message) : Message :=
  { target := m.source
    source := m.target
    sequence_number := m.sequence_number
    content := "ack"
    length := 1 }

/-- The mutable state of the `ALOHA` protocol class. -/
structure ALOHA where
  id : ℕ
  backoff : ℤ
  ack_await_counter : ℤ
  buffer : List Message
  sequence_number : ℤ
deriving DecidableEq, Repr

/-- Python `ALOHA.__init__`: `backoff = randint(1, 16)` is modelled by the
explicit `draw` argument. -/
def ALOHA.init (identifier : ℕ) (draw : ℤ) : ALOHA :=
  { id := identifier
    backoff := draw
    ack_await_counter := 0
    buffer := []
    sequence_number := 0 }

/-- Python `ALOHA.get_next_sequence_number`: increments the counter and
returns its new value, together with the updated protocol state. -/
def ALOHA.get_next_sequence_number (a : ALOHA) : ALOHA × ℤ :=
  ({ a with sequence_number := a.sequence_number + 1 }, a.sequence_number + 1)

/-- Python `ALOHA.generate_packet`: frames a `HighLevelMessage` with a fresh
sequence number and appends it to the buffer. -/
def ALOHA.generate_packet (a : ALOHA) (message : HighLevelMessage) : ALOHA :=
  let s := a.get_next_sequence_number
  { s.1 with
    buffer := s.1.buffer ++
      [{ target := message.target
         source := a.id
         sequence_number := s.2
         content := message.content
         length := message.length }] }

/-- Python `ALOHA.receive_packet`.  A frame not addressed to this node is
dropped.  An ack whose `source` equals the buffer head's `target` clears the
ack-wait counter and pops the head.  Every other frame addressed to this node
gets an ack pushed to the *front* of the buffer, with `backoff` reset to 0. -/
def ALOHA.receive_packet (a : ALOHA) (message : Message) : ALOHA :=
  if message.target ≠ a.id then a
  else
    match a.buffer with
    | b0 :: rest =>
      if message.source = b0.target ∧ message.content = "ack" then
        { a with ack_await_counter := 0, buffer := rest }
      else
        { a with buffer := message.get_ack :: a.buffer, backoff := 0 }
    | [] =>
      { a with buffer := message.get_ack :: a.buffer, backoff := 0 }

/-- Python `ALOHA.send_packet`.  While `ack_await_counter` is nonzero
(Python truthiness) it is decremented and nothing is sent; with an empty
buffer nothing is sent; otherwise `backoff := max 0 (backoff - 1)`, and when
that hits 0 the backoff is re-drawn (`draw` models `randint(1, 16)`), the
ack-wait budget is armed at 50, and the buffer head is returned. -/
def ALOHA.send_packet (a : ALOHA) (draw : ℤ) : ALOHA × Option Message :=
  if a.ack_await_counter ≠ 0 then
    ({ a with ack_await_counter := a.ack_await_counter - 1 }, none)
  else
    match a.buffer with
    | [] => (a, none)
    | b0 :: _ =>
      let b := max 0 (a.backoff - 1)
      if b = 0 then
        ({ a with backoff := draw, ack_await_counter := 50 }, some b0)
      else
        ({ a with backoff := b }, none)

/-- Identity and position snapshot of a transmission's source node (Python
stores a reference to the `Node` object itself). -/
structure RemoteNode where
  id : ℕ
  x_pos : ℤ
  y_pos : ℤ
deriving DecidableEq, Repr

/-- The `Message` payload plus physical-layer metadata: the `Transmission`
dataclass. -/
structure Transmission where
  id : ℕ
  source : RemoteNode
  planned_transmit_time : ℤ
  actual_transmit_time : ℤ
  message : Message
deriving DecidableEq, Repr

/-- The `Node` dataclass of `node.py` (ALOHA draft).  The
`collision_counter` field is Modelled from the spec: the increment of a
per-node monotonic collision count (§6, §4.1 "record a collision") lives in
the repository's second draft (`aloha_node.py` / the routing `node.py`
imported by `scenarious_routing.py`), which is not under src/. -/
structure Node where
  id : ℕ
  state : NodeState
  x_pos : ℤ
  y_pos : ℤ
  neighbors : List ℕ
  currently_receiving : Option Transmission
  state_counter : ℤ
  protocol : ALOHA
  collision_counter : ℕ
deriving DecidableEq, Repr

/-- Python `Node.get_packet_travel_time`:
`int(get_distance_between_nodes(self, sender))` with
`get_distance_between_nodes = np.sqrt(dx ** 2 + dy ** 2)`.  At integer
coordinates, truncating the non-negative real square root is its floor,
which is `Nat.sqrt` of the squared distance
(see `travel_time_floor_euclidean`). -/
def Node.get_packet_travel_time (n : Node) (sender : RemoteNode) : ℕ :=
  Nat.sqrt ((n.x_pos - sender.x_pos) ^ 2 + (n.y_pos - sender.y_pos) ^ 2).toNat

/-- The per-receiver arrival lower bound of a transmission:
`t.actual_transmit_time + self.get_packet_travel_time(t.source)`. -/
def Node.arrival_lb (n : Node) (t : Transmission) : ℤ :=
  t.actual_transmit_time + (n.get_packet_travel_time t.source : ℤ)

/-- The local predicate `predicate_close_and_arriving` of
`Node.has_collided`: `simulation_time in list(range(lb, ub)) and t.source in
self.neighbors` with `ub = lb + t.message.length`. -/
def Node.predicate_close_and_arriving (n : Node) (simulation_time : ℤ)
    (t : Transmission) : Bool :=
  decide (n.arrival_lb t ≤ simulation_time ∧
      simulation_time < n.arrival_lb t + (t.message.length : ℤ)) &&
    decide (t.source.id ∈ n.neighbors)

/-- The `current_packets` list of `Node.has_collided`: the in-flight
transmissions from current neighbors whose arrival window contains the
tick. -/
def Node.current_packets (n : Node) (simulation_time : ℤ)
    (active_transmissions : List Transmission) : List Transmission :=
  active_transmissions.filter (n.predicate_close_and_arriving simulation_time)

/-- Python `Node.has_collided`, returning the updated node and the Boolean
result.  Zero candidates: unchanged, `false`.  A single candidate whose
arrival lower bound equals the tick: transition to `Receiving` (counter set
to the frame length, candidate recorded), `false`.  A single candidate
already mid-window: unchanged, `false` (the match statement falls through).
Two or more candidates: `Idle`, counter 0, receive context cleared, `true`;
the `collision_counter` increment in this branch is Modelled from the spec
(§6 `collision_counter`), the src draft only prints. -/
def Node.has_collided (n : Node) (simulation_time : ℤ)
    (active_transmissions : List Transmission) : Node × Bool :=
  match n.current_packets simulation_time active_transmissions with
  | [] => (n, false)
  | [packet] =>
    if n.arrival_lb packet = simulation_time then
      ({ n with
          state := NodeState.Receiving
          currently_receiving := some packet
          state_counter := (packet.message.length : ℤ) }, false)
    else
      (n, false)
  | _ :: _ :: _ =>
    ({ n with
        state := NodeState.Idle
        state_counter := 0
        currently_receiving := none
        collision_counter := n.collision_counter + 1 }, true)

/-- Snapshot of a node as a transmission source (`Transmission(0, self,
...)` stores a reference to the sending node). -/
def Node.asRemote (n : Node) : RemoteNode :=
  { id := n.id, x_pos := n.x_pos, y_pos := n.y_pos }

/-- Python `Node.idle_state`.  Runs the collision check; on collision,
returns (the check already mutated the node).  Otherwise, if still `Idle`
(the check may have switched to `Receiving`, and Python's `and`
short-circuits, leaving the protocol untouched in that case), asks the
policy for a packet; when one is returned the node starts `Sending` and a
`Transmission(0, self, simulation_time, simulation_time, packet)` is
appended to the ledger.  Returns the updated node and ledger. -/
def Node.idle_state (n : Node) (simulation_time : ℤ)
    (active_transmissions : List Transmission) (draw : ℤ) :
    Node × List Transmission :=
  let r := n.has_collided simulation_time active_transmissions
  if r.2 then (r.1, active_transmissions)
  else if r.1.state = NodeState.Idle then
    match r.1.protocol.send_packet draw with
    | (p, some packet) =>
      ({ r.1 with
          protocol := p
          state := NodeState.Sending
          state_counter := (packet.length : ℤ) },
        active_transmissions ++
          [{ id := 0
             source := r.1.asRemote
             planned_transmit_time := simulation_time
             actual_transmit_time := simulation_time
             message := packet }])
    | (p, none) => ({ r.1 with protocol := p }, active_transmissions)
  else (r.1, active_transmissions)

/-- Python `Node.sending_state`: decrement `state_counter`; exactly at zero,
return to `Idle`. -/
def Node.sending_state (n : Node) : Node :=
  let n1 := { n with state_counter := n.state_counter - 1 }
  if n1.state_counter = 0 then { n1 with state := NodeState.Idle } else n1

/-- Python `Node.receiving_state`.  Re-runs the collision check (aborting on
collision); otherwise decrements `state_counter` and, exactly at zero, hands
the recorded frame to the policy's `receive_packet`, clears the receive
context and returns to `Idle`.  Python dereferences
`self.currently_receiving.message` unconditionally; the `none` case (which
would raise at runtime and is unreachable while receiving) leaves the
protocol unchanged. -/
def Node.receiving_state (n : Node) (simulation_time : ℤ)
    (active_transmissions : List Transmission) : Node :=
  let r := n.has_collided simulation_time active_transmissions
  if r.2 then r.1
  else
    let n1 : Node := { r.1 with state_counter := r.1.state_counter - 1 }
    if n1.state_counter = 0 then
      { n1 with
        state := NodeState.Idle
        protocol :=
          match n1.currently_receiving with
          | some tr => n1.protocol.receive_packet tr.message
          | none => n1.protocol
        currently_receiving := none }
    else n1

/-- Modelled from the spec: the per-tick dispatch (`execute_state_machine`)
invoked by `Scenario.run` lives in the routing `node.py` draft, which is not
under src/; §4.1 gives the per-state step and src's `node.py` provides the
three per-state handlers.  `Waiting` has no handler in src and is a no-op. -/
def Node.execute_state_machine (n : Node) (simulation_time : ℤ)
    (active_transmissions : List Transmission) (draw : ℤ) :
    Node × List Transmission :=
  match n.state with
  | NodeState.Idle => n.idle_state simulation_time active_transmissions draw
  | NodeState.Sending => (n.sending_state, active_transmissions)
  | NodeState.Receiving =>
    (n.receiving_state simulation_time active_transmissions,
      active_transmissions)
  | NodeState.Waiting => (n, active_transmissions)

/-- Fresh node as built by the scenario driver: `Idle`, zero counters, a
newly initialised ALOHA instance (`draw` models the `randint(1, 16)` in
`ALOHA.__init__`). -/
def Node.initial (identifier : ℕ) (x y : ℤ) (nbrs : List ℕ) (draw : ℤ) : Node :=
  { id := identifier
    state := NodeState.Idle
    x_pos := x
    y_pos := y
    neighbors := nbrs
    currently_receiving := none
    state_counter := 0
    protocol := ALOHA.init identifier draw
    collision_counter := 0 }

/-- States of one node reachable from a fresh node by per-tick state-machine
steps (against arbitrary ledgers and ticks) and direct MAC-policy
operations.  Random `randint(1, 16)` draws range over `[1, 16]`; generated
application messages have positive `length` (channel occupancy in ticks). -/
inductive Reachable : Node → Prop where
  | init (identifier : ℕ) (x y : ℤ) (nbrs : List ℕ) (draw : ℤ) :
      1 ≤ draw → draw ≤ 16 → Reachable (Node.initial identifier x y nbrs draw)
  | idle_step {n : Node} (h : Reachable n) (hst : n.state = NodeState.Idle)
      (T : ℤ) (ts : List Transmission) (draw : ℤ) :
      1 ≤ draw → draw ≤ 16 → Reachable (n.idle_state T ts draw).1
  | sending_step {n : Node} (h : Reachable n)
      (hst : n.state = NodeState.Sending) : Reachable n.sending_state
  | receiving_step {n : Node} (h : Reachable n)
      (hst : n.state = NodeState.Receiving) (T : ℤ) (ts : List Transmission) :
      Reachable (n.receiving_state T ts)
  | generate {n : Node} (h : Reachable n) (hm : HighLevelMessage) :
      1 ≤ hm.length → Reachable { n with protocol := n.protocol.generate_packet hm }
  | deliver {n : Node} (h : Reachable n) (m : Message) :
      Reachable { n with protocol := n.protocol.receive_packet m }

/-- Invariant of an ALOHA policy state: backoff within `[0, 16]` and every
buffered frame of positive length. -/
def ALOHAInv (a : ALOHA) : Prop :=
  0 ≤ a.backoff ∧ a.backoff ≤ 16 ∧ ∀ m ∈ a.buffer, 1 ≤ m.length

/-- Invariant of a node: non-negative `state_counter`, positive while
`Sending`/`Receiving`, and the policy invariant. -/
def NodeInv (n : Node) : Prop :=
  0 ≤ n.state_counter ∧
  (n.state = NodeState.Sending ∨ n.state = NodeState.Receiving →
    1 ≤ n.state_counter) ∧
  ALOHAInv n.protocol

/-- Runs `receiving_state` for `k` consecutive ticks `start + 1`, ...,
`start + k` against a fixed ledger. -/
def Node.run_receiving_from (n : Node) (ts : List Transmission) (start : ℤ) :
    ℕ → Node
  | 0 => n
  | k + 1 =>
    (Node.run_receiving_from n ts start k).receiving_state
      (start + (k : ℤ) + 1) ts

/-! Concrete fixtures for witnesses and counterexamples. -/

/-- Sample data frame: node 2 sends 3 ticks of payload to node 1. -/
def mA : Message := ⟨1, 2, 1, "hello", 3⟩

/-- Sample data frame: node 3 sends 2 ticks of payload to node 1. -/
def mB : Message := ⟨1, 3, 1, "world", 2⟩

/-- Transmission of `mA`, started at tick 5 by node 2 sitting at the
origin. -/
def trA : Transmission := ⟨0, ⟨2, 0, 0⟩, 5, 5, mA⟩

/-- Transmission of `mB`, started at tick 5 by node 3 sitting at the
origin. -/
def trB : Transmission := ⟨1, ⟨3, 0, 0⟩, 5, 5, mB⟩

/-- Receiver at the origin, idle, with nodes 2 and 3 as neighbors. -/
def recvNode : Node := ⟨1, NodeState.Idle, 0, 0, [2, 3], none, 0, ALOHA.init 1 4, 0⟩

/-- Receiver mid-transmission (`Sending`), with nodes 2 and 3 as
neighbors. -/
def sendingNode : Node := ⟨1, NodeState.Sending, 0, 0, [2, 3], none, 5, ALOHA.init 1 4, 0⟩

/-- Idle receiver at the origin with an empty neighbor list. -/
def lonerNode : Node := ⟨1, NodeState.Idle, 0, 0, [], none, 0, ALOHA.init 1 4, 0⟩

/-- Data frame from node 4 to node 9. -/
def sendMsg : Message := ⟨9, 4, 1, "payload", 3⟩

/-- Node 4 at the origin, idle, backoff about to expire, `sendMsg`
buffered. -/
def sendNode : Node := ⟨4, NodeState.Idle, 0, 0, [], none, 0, ⟨4, 1, 0, [sendMsg], 1⟩, 0⟩

/-- The transmission `sendNode` appends when it fires at tick 5. -/
def nearTr : Transmission := ⟨0, ⟨4, 0, 0⟩, 5, 5, sendMsg⟩

/-- Receiver at the same position as node 4 (distance 0, travel time 0). -/
def bNear : Node := ⟨9, NodeState.Idle, 0, 0, [4], none, 0, ALOHA.init 9 4, 0⟩

/-- Receiver at (3, 4): distance 5 from the origin, travel time 5. -/
def bFar : Node := ⟨7, NodeState.Idle, 3, 4, [4], none, 0, ALOHA.init 7 4, 0⟩

/-- A fresh node (initial draw 5) that has just consumed the data frame
`mA`: `receive_packet` resets its ALOHA backoff to 0 to prioritise the
ack. -/
def ackPrimedNode : Node :=
  { Node.initial 1 0 0 [] 5 with
    protocol := (Node.initial 1 0 0 [] 5).protocol.receive_packet mA }

/-! Helper lemmas. -/

/-- The collision check never touches a node's identity, position, neighbor
list or MAC policy state. -/
theorem has_collided_preserved (n : Node) (T : ℤ) (ts : List Transmission) :
    (n.has_collided T ts).1.id = n.id ∧
    (n.has_collided T ts).1.x_pos = n.x_pos ∧
    (n.has_collided T ts).1.y_pos = n.y_pos ∧
    (n.has_collided T ts).1.neighbors = n.neighbors ∧
    (n.has_collided T ts).1.protocol = n.protocol := by
  rcases hc : n.current_packets T ts with _ | ⟨p, _ | ⟨q, rest⟩⟩
  · simp [Node.has_collided, hc]
  · by_cases hlb : n.arrival_lb p = T
    · simp [Node.has_collided, hc, hlb]
    · simp [Node.has_collided, hc, hlb]
  · simp [Node.has_collided, hc]

/-- When the collision check does not report a collision, the node is either
untouched or has just switched to `Receiving`. -/
theorem has_collided_state_cases (n : Node) (T : ℤ) (ts : List Transmission)
    (h : (n.has_collided T ts).2 = false) :
    (n.has_collided T ts).1 = n ∨
    (n.has_collided T ts).1.state = NodeState.Receiving := by
  rcases hc : n.current_packets T ts with _ | ⟨p, _ | ⟨q, rest⟩⟩
  · simp [Node.has_collided, hc]
  · by_cases hlb : n.arrival_lb p = T
    · right; simp [Node.has_collided, hc, hlb]
    · left; simp [Node.has_collided, hc, hlb]
  · simp [Node.has_collided, hc] at h

/-- Every candidate of the collision check carries a frame of positive
length: its arrival window `[lb, lb + length)` contains the tick. -/
theorem mem_current_packets_length_pos (n : Node) (T : ℤ)
    (ts : List Transmission) (t : Transmission)
    (h : t ∈ n.current_packets T ts) : 1 ≤ t.message.length := by
  simp only [Node.current_packets, List.mem_filter,
    Node.predicate_close_and_arriving, Bool.and_eq_true, decide_eq_true_eq] at h
  omega

/-- C9: the packet travel time equals the floor of the Euclidean distance
between the two positions (one distance unit per tick of propagation delay)
and is a non-negative integer. -/
theorem travel_time_floor_euclidean (n : Node) (s : RemoteNode) :
    ((n.get_packet_travel_time s : ℤ) =
      ⌊Real.sqrt (((n.x_pos : ℝ) - (s.x_pos : ℝ)) ^ 2 +
        ((n.y_pos : ℝ) - (s.y_pos : ℝ)) ^ 2)⌋) ∧
    0 ≤ (n.get_packet_travel_time s : ℤ) := by
  constructor
  · have hD : (0 : ℤ) ≤ (n.x_pos - s.x_pos) ^ 2 + (n.y_pos - s.y_pos) ^ 2 := by
      positivity
    have h1 :
        ((((n.x_pos - s.x_pos) ^ 2 + (n.y_pos - s.y_pos) ^ 2).toNat : ℕ) : ℝ) =
          (((n.x_pos - s.x_pos) ^ 2 + (n.y_pos - s.y_pos) ^ 2 : ℤ) : ℝ) := by
      exact_mod_cast Int.toNat_of_nonneg hD
    have h2 :
        (((n.x_pos - s.x_pos) ^ 2 + (n.y_pos - s.y_pos) ^ 2 : ℤ) : ℝ) =
          ((n.x_pos : ℝ) - (s.x_pos : ℝ)) ^ 2 +
            ((n.y_pos : ℝ) - (s.y_pos : ℝ)) ^ 2 := by
      push_cast
      ring
    rw [Node.get_packet_travel_time, ← h2, ← h1,
      Real.floor_real_sqrt_eq_nat_sqrt]
  · exact Int.natCast_nonneg _

/-- C10: a frame whose target is another node leaves the ALOHA policy state
entirely unchanged — no buffer, backoff, ack-wait or sequence-number update,
and no ack enqueued. -/
theorem receive_packet_wrong_target (a : ALOHA) (m : Message)
    (h : m.target ≠ a.id) : a.receive_packet m = a := by
  simp [ALOHA.receive_packet, h]

/-- Witness for `receive_packet_wrong_target` at a concrete state. -/
theorem receive_packet_wrong_target_witness :
    ALOHA.receive_packet ⟨1, 7, 3, [mA], 1⟩ ⟨9, 5, 2, "ack", 1⟩ =
      ⟨1, 7, 3, [mA], 1⟩ :=
  receive_packet_wrong_target ⟨1, 7, 3, [mA], 1⟩ ⟨9, 5, 2, "ack", 1⟩ (by decide)

/-- C4: an ack reverses the acknowledged frame's `(source, target)` pair,
carries the same sequence number, and — delivered to the originating node
while the frame heads the buffer — pops exactly that head and zeroes the
ack-wait counter. -/
theorem get_ack_round_trip (f : Message) (a : ALOHA) (rest : List Message)
    (hid : a.id = f.source) (hbuf : a.buffer = f :: rest) :
    f.get_ack.target = f.source ∧ f.get_ack.source = f.target ∧
    f.get_ack.sequence_number = f.sequence_number ∧
    a.receive_packet f.get_ack =
      { a with ack_await_counter := 0, buffer := rest } := by
  refine ⟨rfl, rfl, rfl, ?_⟩
  simp [ALOHA.receive_packet, Message.get_ack, hid, hbuf]

/-- Witness for `get_ack_round_trip`: the ack for `mA` clears exactly `mA`
from node 2's buffer. -/
theorem get_ack_round_trip_witness :
    ALOHA.receive_packet ⟨2, 7, 3, [mA], 4⟩ mA.get_ack = ⟨2, 7, 0, [], 4⟩ :=
  (get_ack_round_trip mA ⟨2, 7, 3, [mA], 4⟩ [] rfl rfl).2.2.2

/-- C3 counterexample: a stray ack (addressed to this node, `source` not
matching the buffer head's `target`) is NOT a no-op — the code treats it as
data, pushes an ack for it to the front of the buffer and zeroes the
backoff. -/
theorem stray_ack_not_ignored_cex :
    ALOHA.receive_packet ⟨1, 7, 3, [mA], 1⟩ ⟨1, 5, 9, "ack", 1⟩ ≠
      ⟨1, 7, 3, [mA], 1⟩ ∧
    (ALOHA.receive_packet ⟨1, 7, 3, [mA], 1⟩ ⟨1, 5, 9, "ack", 1⟩).buffer =
      [Message.get_ack ⟨1, 5, 9, "ack", 1⟩, mA] ∧
    (ALOHA.receive_packet ⟨1, 7, 3, [mA], 1⟩ ⟨1, 5, 9, "ack", 1⟩).backoff = 0 := by
  decide

/-- C3 amended: a stray ack addressed to this node that does not match the
buffer head is treated like any other inbound frame: an ack for it is pushed
to the front of the buffer and the backoff is reset to 0; the pre-existing
buffer entries and the ack-wait counter are untouched and nothing is
deleted. -/
theorem stray_ack_treated_as_data (a : ALOHA) (m : Message)
    (htgt : m.target = a.id) (hack : m.content = "ack")
    (hmis : ∀ b0, a.buffer.head? = some b0 → m.source ≠ b0.target) :
    a.receive_packet m =
      { a with buffer := m.get_ack :: a.buffer, backoff := 0 } := by
  unfold ALOHA.receive_packet
  rw [if_neg (by simp [htgt])]
  cases hb : a.buffer with
  | nil => rfl
  | cons b0 rest =>
    have hne : m.source ≠ b0.target := hmis b0 (by simp [hb])
    dsimp only
    rw [if_neg fun hcontra => hne hcontra.1]

/-- Witness for `stray_ack_treated_as_data` at a concrete state. -/
theorem stray_ack_treated_as_data_witness :
    ALOHA.receive_packet ⟨1, 7, 3, [mA], 1⟩ ⟨1, 5, 9, "ack", 1⟩ =
      ⟨1, 0, 3, [⟨5, 1, 9, "ack", 1⟩, mA], 1⟩ :=
  stray_ack_treated_as_data ⟨1, 7, 3, [mA], 1⟩ ⟨1, 5, 9, "ack", 1⟩ rfl rfl
    (by decide)

/-- C2: full case analysis of `ALOHA.send_packet`.  A positive ack-wait
counter freezes the sender (decrement, no frame); with no outstanding ack
and an empty buffer nothing is sent; otherwise the backoff is decremented
(clamped at 0) and exactly when it reaches zero the backoff is reset to the
fresh draw, the ack-wait budget is armed at 50 and the head frame is
returned; in every other case no frame is returned. -/
theorem send_packet_cases (a : ALOHA) (draw : ℤ) :
    (0 < a.ack_await_counter →
      a.send_packet draw =
        ({ a with ack_await_counter := a.ack_await_counter - 1 }, none)) ∧
    (a.ack_await_counter = 0 → a.buffer = [] →
      a.send_packet draw = (a, none)) ∧
    (∀ b0 rest, a.ack_await_counter = 0 → a.buffer = b0 :: rest →
      (max 0 (a.backoff - 1) = 0 →
        a.send_packet draw =
          ({ a with backoff := draw, ack_await_counter := 50 }, some b0)) ∧
      (max 0 (a.backoff - 1) ≠ 0 →
        a.send_packet draw = ({ a with backoff := a.backoff - 1 }, none))) := by
  refine ⟨?_, ?_, ?_⟩
  · intro h
    have hne : a.ack_await_counter ≠ 0 := by omega
    simp [ALOHA.send_packet, hne]
  · intro h hb
    simp [ALOHA.send_packet, h, hb]
  · intro b0 rest h hb
    constructor
    · intro hz
      simp [ALOHA.send_packet, h, hb, hz]
    · intro hz
      have hpos : max 0 (a.backoff - 1) = a.backoff - 1 := by omega
      simp [ALOHA.send_packet, h, hb, hpos]
      omega

/-- Witness for `send_packet_cases`: with backoff 1, no outstanding ack and
`mA` buffered, the node fires: fresh backoff 12, ack-wait 50, head
returned. -/
theorem send_packet_cases_witness :
    ALOHA.send_packet ⟨1, 1, 0, [mA], 1⟩ 12 = (⟨1, 12, 50, [mA], 1⟩, some mA) :=
  ((send_packet_cases ⟨1, 1, 0, [mA], 1⟩ 12).2.2 mA [] rfl rfl).1 (by decide)

/-- C1: the collision check selects exactly the in-flight transmissions from
current neighbors whose per-receiver arrival window `[lb, lb + length)`
contains the tick, and classifies them: zero candidates — node unchanged, no
signal; one candidate with `lb` equal to the tick — `Receiving`, counter set
to the frame length, candidate recorded; one candidate mid-window — no state
change at all; two or more candidates — `Idle`, counter 0, receive context
cleared, collision reported. -/
theorem has_collided_classification (n : Node) (T : ℤ)
    (ts : List Transmission) :
    (∀ t, t ∈ n.current_packets T ts ↔
      (t ∈ ts ∧ (n.arrival_lb t ≤ T ∧ T < n.arrival_lb t + (t.message.length : ℤ)) ∧
        t.source.id ∈ n.neighbors)) ∧
    (n.current_packets T ts = [] → n.has_collided T ts = (n, false)) ∧
    (∀ p, n.current_packets T ts = [p] → n.arrival_lb p = T →
      n.has_collided T ts =
        ({ n with
            state := NodeState.Receiving
            currently_receiving := some p
            state_counter := (p.message.length : ℤ) }, false)) ∧
    (∀ p, n.current_packets T ts = [p] → n.arrival_lb p ≠ T →
      n.has_collided T ts = (n, false)) ∧
    (2 ≤ (n.current_packets T ts).length →
      n.has_collided T ts =
        ({ n with
            state := NodeState.Idle
            state_counter := 0
            currently_receiving := none
            collision_counter := n.collision_counter + 1 }, true)) := by
  refine ⟨?_, ?_, ?_, ?_, ?_⟩
  · intro t
    simp [Node.current_packets, List.mem_filter,
      Node.predicate_close_and_arriving, and_assoc]
  · intro h
    simp [Node.has_collided, h]
  · intro p hp hlb
    simp [Node.has_collided, hp, hlb]
  · intro p hp hlb
    simp [Node.has_collided, hp, hlb]
  · intro h2
    rcases hc : n.current_packets T ts with _ | ⟨p, _ | ⟨q, rest⟩⟩
    · rw [hc] at h2; simp at h2
    · rw [hc] at h2; simp at h2
    · simp [Node.has_collided, hc]

/-- Witness for `has_collided_classification`: at tick 6 both `trA` and
`trB` are mid-flight toward `recvNode`, and the check reports a collision
dropping the node to `Idle`. -/
theorem has_collided_classification_witness :
    recvNode.has_collided 6 [trA, trB] =
      ({ recvNode with
          state := NodeState.Idle
          state_counter := 0
          currently_receiving := none
          collision_counter := recvNode.collision_counter + 1 }, true) :=
  (has_collided_classification recvNode 6 [trA, trB]).2.2.2.2 (by decide)

/-- C6 counterexample: two transmissions whose arrival windows both contain
the tick do not always bump the collision counter — a node that is mid-send
(state `Sending`) never runs the collision check, and a node none of whose
neighbors are the senders filters both transmissions out. -/
theorem two_candidates_collision_count_cex :
    (sendingNode.current_packets 6 [trA, trB]).length = 2 ∧
    (sendingNode.execute_state_machine 6 [trA, trB] 3).1.collision_counter =
      sendingNode.collision_counter ∧
    (sendingNode.execute_state_machine 6 [trA, trB] 3).1.state =
      NodeState.Sending ∧
    (lonerNode.arrival_lb trA ≤ 6 ∧
      6 < lonerNode.arrival_lb trA + (trA.message.length : ℤ)) ∧
    (lonerNode.arrival_lb trB ≤ 6 ∧
      6 < lonerNode.arrival_lb trB + (trB.message.length : ℤ)) ∧
    (lonerNode.execute_state_machine 6 [trA, trB] 3).1.collision_counter =
      lonerNode.collision_counter ∧
    (lonerNode.execute_state_machine 6 [trA, trB] 3).1.state =
      NodeState.Idle := by
  decide

/-- C6 amended: when the receiver is `Idle` or `Receiving` and its collision
check has exactly two candidates (in-flight transmissions from neighbors
whose arrival windows contain the tick), its step increments the collision
counter by exactly 1 and leaves it `Idle`, not `Receiving`. -/
theorem two_candidates_collision_count (n : Node) (T : ℤ)
    (ts : List Transmission) (draw : ℤ) (p q : Transmission)
    (hstate : n.state = NodeState.Idle ∨ n.state = NodeState.Receiving)
    (hc : n.current_packets T ts = [p, q]) :
    (n.execute_state_machine T ts draw).1.collision_counter =
      n.collision_counter + 1 ∧
    (n.execute_state_machine T ts draw).1.state = NodeState.Idle := by
  have hcol : n.has_collided T ts =
      ({ n with
          state := NodeState.Idle
          state_counter := 0
          currently_receiving := none
          collision_counter := n.collision_counter + 1 }, true) := by
    simp [Node.has_collided, hc]
  rcases hstate with hst | hst
  · simp [Node.execute_state_machine, hst, Node.idle_state, hcol]
  · simp [Node.execute_state_machine, hst, Node.receiving_state, hcol]

/-- Witness for `two_candidates_collision_count`: `recvNode` is idle at tick
6 with `trA` and `trB` both mid-flight. -/
theorem two_candidates_collision_count_witness :
    (recvNode.execute_state_machine 6 [trA, trB] 3).1.collision_counter =
      recvNode.collision_counter + 1 ∧
    (recvNode.execute_state_machine 6 [trA, trB] 3).1.state =
      NodeState.Idle :=
  two_candidates_collision_count recvNode 6 [trA, trB] 3 trA trB
    (Or.inl rfl) (by decide)

/-- C8 counterexample: with zero propagation delay (distance < 1 floors to a
travel time of 0) a transmission appended by node 4 during its step at tick
5 IS seen by the co-located receiver `bNear`'s collision check at the same
tick 5: its arrival lower bound equals the tick and the check transitions
`bNear` to `Receiving`. -/
theorem same_tick_transmission_seen_cex :
    (sendNode.idle_state 5 [] 7).2 = [nearTr] ∧
    bNear.predicate_close_and_arriving 5 nearTr = true ∧
    bNear.arrival_lb nearTr = 5 ∧
    (bNear.has_collided 5 [nearTr]).1.state = NodeState.Receiving := by
  decide

/-- The ledger returned by `idle_state` is either untouched or extended with
exactly one transmission stamped with the current tick and the sender's
snapshot. -/
theorem idle_state_ledger_cases (n : Node) (T : ℤ) (ts : List Transmission)
    (d : ℤ) :
    (n.idle_state T ts d).2 = ts ∨
    ∃ packet, (n.idle_state T ts d).2 =
      ts ++ [{ id := 0
               source := n.asRemote
               planned_transmit_time := T
               actual_transmit_time := T
               message := packet }] := by
  have hpres := has_collided_preserved n T ts
  have hrem : (n.has_collided T ts).1.asRemote = n.asRemote := by
    simp [Node.asRemote, hpres.1, hpres.2.1, hpres.2.2.1]
  by_cases hcol : (n.has_collided T ts).2
  · left
    simp [Node.idle_state, hcol]
  · by_cases hst : (n.has_collided T ts).1.state = NodeState.Idle
    · rcases hsp : (n.has_collided T ts).1.protocol.send_packet d with ⟨p, op⟩
      cases op with
      | none =>
        left
        simp [Node.idle_state, hcol, hst, hsp]
      | some packet =>
        right
        exact ⟨packet, by simp [Node.idle_state, hcol, hst, hsp, hrem]⟩
    · left
      simp [Node.idle_state, hcol, hst]

/-- C8 amended: every transmission a node appends during its step at tick T
carries `actual_transmit_time = T` and a snapshot of the sender; for any
receiver whose travel time from that sender is at least 1 tick (distance at
least one unit), such a transmission is invisible to the collision check at
tick T itself — its arrival lower bound is at least T + 1. -/
theorem same_tick_transmission_invisible (a b : Node) (T : ℤ)
    (ts : List Transmission) (draw : ℤ) (tr : Transmission) :
    (∀ x ∈ (a.idle_state T ts draw).2,
      x ∈ ts ∨ (x.actual_transmit_time = T ∧ x.source = a.asRemote)) ∧
    (tr.actual_transmit_time = T →
      1 ≤ b.get_packet_travel_time tr.source →
      b.predicate_close_and_arriving T tr = false ∧
      T + 1 ≤ b.arrival_lb tr) := by
  constructor
  · intro x hx
    rcases idle_state_ledger_cases a T ts draw with hl | ⟨packet, hl⟩
    · rw [hl] at hx
      exact Or.inl hx
    · rw [hl] at hx
      rcases List.mem_append.1 hx with hmem | hmem
      · exact Or.inl hmem
      · right
        have hxeq := List.mem_singleton.1 hmem
        subst hxeq
        exact ⟨rfl, rfl⟩
  · intro htt htravel
    have htravel' : (1 : ℤ) ≤ (b.get_packet_travel_time tr.source : ℤ) := by
      exact_mod_cast htravel
    have hlb : T + 1 ≤ b.arrival_lb tr := by
      unfold Node.arrival_lb
      omega
    refine ⟨?_, hlb⟩
    apply Bool.eq_false_iff.mpr
    intro hp
    unfold Node.predicate_close_and_arriving at hp
    rw [Bool.and_eq_true, decide_eq_true_eq, decide_eq_true_eq] at hp
    omega

/-- Witness for `same_tick_transmission_invisible`: `bFar` sits at distance
5 from node 4, so `trA`-style transmission `nearTr` (sent at tick 5) only
reaches it from tick 10 on and is invisible at tick 5. -/
theorem same_tick_transmission_invisible_witness :
    bFar.predicate_close_and_arriving 5 nearTr = false ∧
    (5 : ℤ) + 1 ≤ bFar.arrival_lb nearTr :=
  (same_tick_transmission_invisible sendNode bFar 5 [] 3 nearTr).2 rfl
    (by
      have h25 : Int.toNat ((bFar.x_pos - nearTr.source.x_pos) ^ 2 +
          (bFar.y_pos - nearTr.source.y_pos) ^ 2) = 25 := by decide
      rw [Node.get_packet_travel_time, h25]
      norm_num)

/-- Mid-reception tick: with the single transmission still in its window but
past its arrival tick, the collision check changes nothing and the receive
counter just decrements. -/
theorem receiving_state_continue (n : Node) (t : Transmission) (T u c : ℤ)
    (hnb : t.source.id ∈ n.neighbors) (hlb : n.arrival_lb t = T)
    (hwin : T ≤ u ∧ u < T + (t.message.length : ℤ)) (hu : u ≠ T)
    (hc : c - 1 ≠ 0) :
    Node.receiving_state
      { n with
        state := NodeState.Receiving
        currently_receiving := some t
        state_counter := c } u [t] =
      { n with
        state := NodeState.Receiving
        currently_receiving := some t
        state_counter := c - 1 } := by
  have hlbB : Node.arrival_lb
      { n with
        state := NodeState.Receiving
        currently_receiving := some t
        state_counter := c } t = T := hlb
  have hpredB : Node.predicate_close_and_arriving
      { n with
        state := NodeState.Receiving
        currently_receiving := some t
        state_counter := c } u t = true := by
    simp only [Node.predicate_close_and_arriving, Bool.and_eq_true,
      decide_eq_true_eq]
    refine ⟨?_, hnb⟩
    rw [hlbB]
    exact hwin
  have hcp : Node.current_packets
      { n with
        state := NodeState.Receiving
        currently_receiving := some t
        state_counter := c } u [t] = [t] := by
    simp [Node.current_packets, hpredB]
  have hne : ¬(Node.arrival_lb
      { n with
        state := NodeState.Receiving
        currently_receiving := some t
        state_counter := c } t = u) := by
    rw [hlbB]
    exact fun h => hu h.symm
  have hcol : Node.has_collided
      { n with
        state := NodeState.Receiving
        currently_receiving := some t
        state_counter := c } u [t] =
      ({ n with
        state := NodeState.Receiving
        currently_receiving := some t
        state_counter := c }, false) := by
    simp [Node.has_collided, hcp, hne]
  simp [Node.receiving_state, hcol, hc]

/-- Final reception tick: the transmission's window has closed, the counter
reaches zero, the frame is handed unmodified to `receive_packet` and the
receive context is cleared. -/
theorem receiving_state_finish (n : Node) (t : Transmission) (T u : ℤ)
    (hlb : n.arrival_lb t = T)
    (hout : ¬(T ≤ u ∧ u < T + (t.message.length : ℤ))) :
    Node.receiving_state
      { n with
        state := NodeState.Receiving
        currently_receiving := some t
        state_counter := 1 } u [t] =
      { n with
        state := NodeState.Idle
        currently_receiving := none
        state_counter := 0
        protocol := n.protocol.receive_packet t.message } := by
  have hlbB : Node.arrival_lb
      { n with
        state := NodeState.Receiving
        currently_receiving := some t
        state_counter := (1 : ℤ) } t = T := hlb
  have hpredB : Node.predicate_close_and_arriving
      { n with
        state := NodeState.Receiving
        currently_receiving := some t
        state_counter := (1 : ℤ) } u t = false := by
    apply Bool.eq_false_iff.mpr
    intro hp
    simp only [Node.predicate_close_and_arriving, Bool.and_eq_true,
      decide_eq_true_eq] at hp
    rw [hlbB] at hp
    exact hout hp.1
  have hcp : Node.current_packets
      { n with
        state := NodeState.Receiving
        currently_receiving := some t
        state_counter := (1 : ℤ) } u [t] = [] := by
    simp [Node.current_packets, hpredB]
  have hcol : Node.has_collided
      { n with
        state := NodeState.Receiving
        currently_receiving := some t
        state_counter := (1 : ℤ) } u [t] =
      ({ n with
        state := NodeState.Receiving
        currently_receiving := some t
        state_counter := (1 : ℤ) }, false) := by
    simp [Node.has_collided, hcp]
  simp [Node.receiving_state, hcol]

/-- C7: a single transmission from a neighbor whose arrival lower bound
equals the current tick puts the idle receiver into `Receiving` with the
frame recorded; with no further arrivals it stays `Receiving` strictly
before `length` ticks have elapsed, and exactly `length` ticks later it is
back in `Idle`, the receive context is cleared, and the policy has consumed
the original frame unmodified via `receive_packet`. -/
theorem single_arrival_reception (n : Node) (t : Transmission) (T : ℤ)
    (draw : ℤ) (hIdle : n.state = NodeState.Idle)
    (hnb : t.source.id ∈ n.neighbors) (hlb : n.arrival_lb t = T)
    (hlen : 1 ≤ t.message.length) :
    (n.idle_state T [t] draw).2 = [t] ∧
    (n.idle_state T [t] draw).1 =
      { n with
        state := NodeState.Receiving
        currently_receiving := some t
        state_counter := (t.message.length : ℤ) } ∧
    (∀ k : ℕ, k < t.message.length →
      ((n.idle_state T [t] draw).1.run_receiving_from [t] T k).state =
        NodeState.Receiving) ∧
    (n.idle_state T [t] draw).1.run_receiving_from [t] T t.message.length =
      { n with
        state := NodeState.Idle
        currently_receiving := none
        state_counter := 0
        protocol := n.protocol.receive_packet t.message } := by
  have hlen' : (1 : ℤ) ≤ (t.message.length : ℤ) := by exact_mod_cast hlen
  have hpred : n.predicate_close_and_arriving T t = true := by
    simp only [Node.predicate_close_and_arriving, Bool.and_eq_true,
      decide_eq_true_eq]
    rw [hlb]
    exact ⟨⟨le_refl T, by omega⟩, hnb⟩
  have hcp : n.current_packets T [t] = [t] := by
    simp [Node.current_packets, hpred]
  have hcol : n.has_collided T [t] =
      ({ n with
          state := NodeState.Receiving
          currently_receiving := some t
          state_counter := (t.message.length : ℤ) }, false) := by
    simp [Node.has_collided, hcp, hlb]
  have hA : n.idle_state T [t] draw =
      ({ n with
          state := NodeState.Receiving
          currently_receiving := some t
          state_counter := (t.message.length : ℤ) }, [t]) := by
    simp [Node.idle_state, hcol]
  have hA1 : (n.idle_state T [t] draw).1 =
      { n with
        state := NodeState.Receiving
        currently_receiving := some t
        state_counter := (t.message.length : ℤ) } := by rw [hA]
  have hA2 : (n.idle_state T [t] draw).2 = [t] := by rw [hA]
  have key : ∀ k : ℕ, k < t.message.length →
      Node.run_receiving_from
        { n with
          state := NodeState.Receiving
          currently_receiving := some t
          state_counter := (t.message.length : ℤ) } [t] T k =
        { n with
          state := NodeState.Receiving
          currently_receiving := some t
          state_counter := (t.message.length : ℤ) - (k : ℤ) } := by
    intro k
    induction k with
    | zero =>
      intro _
      simp [Node.run_receiving_from]
    | succ k ih =>
      intro hk
      have hk' : k < t.message.length := Nat.lt_of_succ_lt hk
      have hkZ : ((k : ℤ) + 1) < (t.message.length : ℤ) := by
        exact_mod_cast hk
      simp only [Node.run_receiving_from]
      rw [ih hk']
      rw [receiving_state_continue n t T (T + (k : ℤ) + 1)
        ((t.message.length : ℤ) - (k : ℤ)) hnb hlb
        (by constructor <;> omega) (by omega) (by omega)]
      congr 1
      omega
  refine ⟨hA2, hA1, ?_, ?_⟩
  · intro k hk
    rw [hA1, key k hk]
  · rw [hA1]
    obtain ⟨L, hL⟩ : ∃ L, t.message.length = L + 1 :=
      ⟨t.message.length - 1, by omega⟩
    nth_rewrite 2 [hL]
    simp only [Node.run_receiving_from]
    have hLlt : L < t.message.length := by omega
    rw [key L hLlt]
    have hone : (t.message.length : ℤ) - (L : ℤ) = 1 := by
      rw [hL]
      push_cast
      ring
    rw [hone]
    apply receiving_state_finish n t T (T + (L : ℤ) + 1) hlb
    rw [hL]
    push_cast
    omega

/-- Witness for `single_arrival_reception`: `trA` arrives alone at
`recvNode` at tick 5 and is delivered to the policy 3 ticks later. -/
theorem single_arrival_reception_witness :
    (recvNode.idle_state 5 [trA] 3).1.run_receiving_from [trA] 5 3 =
      { recvNode with
        state := NodeState.Idle
        currently_receiving := none
        state_counter := 0
        protocol := recvNode.protocol.receive_packet trA.message } :=
  (single_arrival_reception recvNode trA 5 3 rfl (by decide) (by decide)
    (by decide)).2.2.2

/-- A freshly initialised ALOHA instance satisfies the policy invariant. -/
theorem ALOHAInv_init (identifier : ℕ) (draw : ℤ) (h1 : 1 ≤ draw)
    (h16 : draw ≤ 16) : ALOHAInv (ALOHA.init identifier draw) := by
  unfold ALOHAInv ALOHA.init
  dsimp only
  refine ⟨by omega, by omega, by simp⟩

/-- Framing a positive-length application message preserves the policy
invariant. -/
theorem ALOHAInv_generate (a : ALOHA) (hm : HighLevelMessage)
    (ha : ALOHAInv a) (hl : 1 ≤ hm.length) :
    ALOHAInv (a.generate_packet hm) := by
  obtain ⟨h0, h16, hbuf⟩ := ha
  unfold ALOHA.generate_packet ALOHA.get_next_sequence_number
  refine ⟨h0, h16, ?_⟩
  intro x hx
  rcases List.mem_append.1 hx with hx | hx
  · exact hbuf x hx
  · rcases List.mem_singleton.1 hx with rfl
    exact hl

/-- Consuming any inbound frame preserves the policy invariant: the backoff
is either untouched or reset to 0, and any newly enqueued ack has
length 1. -/
theorem ALOHAInv_receive (a : ALOHA) (m : Message) (ha : ALOHAInv a) :
    ALOHAInv (a.receive_packet m) := by
  obtain ⟨h0, h16, hbuf⟩ := ha
  unfold ALOHA.receive_packet
  by_cases htgt : m.target ≠ a.id
  · rw [if_pos htgt]
    exact ⟨h0, h16, hbuf⟩
  · rw [if_neg htgt]
    cases hb : a.buffer with
    | nil =>
      dsimp only
      refine ⟨by norm_num, by norm_num, ?_⟩
      intro x hx
      rcases List.mem_singleton.1 hx with rfl
      simp [Message.get_ack]
    | cons b0 rest =>
      dsimp only
      split
      · refine ⟨h0, h16, ?_⟩
        intro x hx
        exact hbuf x (by rw [hb]; exact List.mem_cons_of_mem _ hx)
      · refine ⟨by norm_num, by norm_num, ?_⟩
        intro x hx
        rcases List.mem_cons.1 hx with rfl | hx
        · simp [Message.get_ack]
        · exact hbuf x (by rw [hb]; exact hx)

/-- Asking the policy for a packet preserves the policy invariant (for a
fresh draw in `[1, 16]`), and any returned frame comes from the buffer and
so has positive length. -/
theorem ALOHAInv_send (a : ALOHA) (d : ℤ) (ha : ALOHAInv a) (h1 : 1 ≤ d)
    (h16 : d ≤ 16) :
    ALOHAInv (a.send_packet d).1 ∧
    ∀ msg, (a.send_packet d).2 = some msg → 1 ≤ msg.length := by
  obtain ⟨h0, hb16, hbuf⟩ := ha
  unfold ALOHAInv ALOHA.send_packet
  by_cases haw : a.ack_await_counter ≠ 0
  · rw [if_pos haw]
    refine ⟨⟨h0, hb16, hbuf⟩, ?_⟩
    intro msg hmsg
    simp at hmsg
  · rw [if_neg haw]
    cases hbf : a.buffer with
    | nil =>
      dsimp only
      refine ⟨⟨h0, hb16, hbuf⟩, ?_⟩
      intro msg hmsg
      simp at hmsg
    | cons b0 rest =>
      dsimp only
      by_cases hz : max 0 (a.backoff - 1) = 0
      · rw [if_pos hz]
        dsimp only
        refine ⟨⟨by omega, by omega, ?_⟩, ?_⟩
        · intro x hx
          exact hbuf x (by rw [hbf]; exact hx)
        · intro msg hmsg
          have hbm : b0 = msg := by simpa using hmsg
          subst hbm
          exact hbuf b0 (by rw [hbf]; exact List.mem_cons_self _ _)
      · rw [if_neg hz]
        dsimp only
        refine ⟨⟨by omega, by omega, ?_⟩, ?_⟩
        · intro x hx
          exact hbuf x (by rw [hbf]; exact hx)
        · intro msg hmsg
          simp at hmsg

/-- The collision check preserves the node invariant: a fresh arrival sets
the counter to the candidate's (positive) length, a collision zeroes it. -/
theorem has_collided_inv (n : Node) (T : ℤ) (ts : List Transmission)
    (h : NodeInv n) : NodeInv (n.has_collided T ts).1 := by
  obtain ⟨hc0, hsr, hp⟩ := h
  rcases hc : n.current_packets T ts with _ | ⟨p, _ | ⟨q, rest⟩⟩
  · have he : (n.has_collided T ts).1 = n := by simp [Node.has_collided, hc]
    rw [he]
    exact ⟨hc0, hsr, hp⟩
  · have hplen : 1 ≤ p.message.length :=
      mem_current_packets_length_pos n T ts p
        (by rw [hc]; exact List.mem_singleton_self p)
    by_cases hlb : n.arrival_lb p = T
    · have he : (n.has_collided T ts).1 =
          { n with
            state := NodeState.Receiving
            currently_receiving := some p
            state_counter := (p.message.length : ℤ) } := by
        simp [Node.has_collided, hc, hlb]
      rw [he]
      refine ⟨Int.natCast_nonneg _, fun _ => by dsimp only; exact_mod_cast hplen, hp⟩
    · have he : (n.has_collided T ts).1 = n := by
        simp [Node.has_collided, hc, hlb]
      rw [he]
      exact ⟨hc0, hsr, hp⟩
  · have he : (n.has_collided T ts).1 =
        { n with
          state := NodeState.Idle
          state_counter := 0
          currently_receiving := none
          collision_counter := n.collision_counter + 1 } := by
      simp [Node.has_collided, hc]
    rw [he]
    refine ⟨le_refl 0, ?_, hp⟩
    intro hcase
    rcases hcase with hx | hx <;> simp at hx

/-- The sending step preserves the node invariant. -/
theorem sending_state_inv (n : Node) (h : NodeInv n)
    (hst : n.state = NodeState.Sending) : NodeInv n.sending_state := by
  obtain ⟨hc0, hsr, hp⟩ := h
  have h1 : 1 ≤ n.state_counter := hsr (Or.inl hst)
  unfold Node.sending_state
  dsimp only
  by_cases hz : n.state_counter - 1 = 0
  · rw [if_pos hz]
    refine ⟨by dsimp only; omega, ?_, hp⟩
    intro hcase
    rcases hcase with hx | hx <;> simp at hx
  · rw [if_neg hz]
    exact ⟨by dsimp only; omega, fun _ => by dsimp only; omega, hp⟩

/-- The receiving step preserves the node invariant. -/
theorem receiving_state_inv (n : Node) (T : ℤ) (ts : List Transmission)
    (h : NodeInv n) (hst : n.state = NodeState.Receiving) :
    NodeInv (n.receiving_state T ts) := by
  have hr := has_collided_inv n T ts h
  by_cases hcol : (n.has_collided T ts).2
  · unfold Node.receiving_state
    rw [if_pos hcol]
    exact hr
  · have hrstate : (n.has_collided T ts).1.state = NodeState.Receiving := by
      rcases has_collided_state_cases n T ts (by simpa using hcol) with he | hs
      · rw [he]
        exact hst
      · exact hs
    obtain ⟨hc0, hsr, hp⟩ := hr
    have h1 : 1 ≤ (n.has_collided T ts).1.state_counter := hsr (Or.inr hrstate)
    unfold Node.receiving_state
    rw [if_neg hcol]
    dsimp only
    by_cases hz : (n.has_collided T ts).1.state_counter - 1 = 0
    · rw [if_pos hz]
      refine ⟨by dsimp only; omega, ?_, ?_⟩
      · intro hcase
        rcases hcase with hx | hx <;> simp at hx
      · rcases hcr : (n.has_collided T ts).1.currently_receiving with _ | tr
        · simpa [hcr] using hp
        · simp only [hcr]
          exact ALOHAInv_receive _ _ hp
    · rw [if_neg hz]
      exact ⟨by dsimp only; omega, fun _ => by dsimp only; omega, hp⟩

/-- The idle step preserves the node invariant (for a fresh draw in
`[1, 16]`). -/
theorem idle_state_inv (n : Node) (T : ℤ) (ts : List Transmission) (d : ℤ)
    (h : NodeInv n) (h1 : 1 ≤ d) (h16 : d ≤ 16) :
    NodeInv (n.idle_state T ts d).1 := by
  have hr := has_collided_inv n T ts h
  unfold Node.idle_state
  dsimp only
  by_cases hcol : (n.has_collided T ts).2
  · rw [if_pos hcol]
    exact hr
  · rw [if_neg hcol]
    by_cases hst : (n.has_collided T ts).1.state = NodeState.Idle
    · rw [if_pos hst]
      obtain ⟨hc0, hsr, hp⟩ := hr
      have hsend := ALOHAInv_send ((n.has_collided T ts).1.protocol) d hp h1 h16
      rcases hsp : ((n.has_collided T ts).1.protocol.send_packet d) with ⟨p, op⟩
      have hsend1 : ALOHAInv p := by
        have := hsend.1
        rw [hsp] at this
        exact this
      cases op with
      | none =>
        simp only [hsp]
        exact ⟨hc0, fun hcase => by
          rcases hcase with hx | hx <;> (rw [hst] at hx; simp at hx), hsend1⟩
      | some packet =>
        simp only [hsp]
        have hplen : 1 ≤ packet.length := by
          refine hsend.2 packet ?_
          rw [hsp]
        exact ⟨Int.natCast_nonneg _, fun _ => by dsimp only; exact_mod_cast hplen,
          hsend1⟩
    · rw [if_neg hst]
      exact hr

/-- Every reachable node state satisfies the node invariant. -/
theorem reachable_nodeInv (n : Node) (h : Reachable n) : NodeInv n := by
  induction h with
  | init identifier x y nbrs draw h1 h16 =>
    refine ⟨le_refl 0, ?_, ALOHAInv_init identifier draw h1 h16⟩
    intro hcase
    rcases hcase with hx | hx <;> simp [Node.initial] at hx
  | idle_step h hst T ts draw h1 h16 ih =>
    exact idle_state_inv _ T ts draw ih h1 h16
  | sending_step h hst ih => exact sending_state_inv _ ih hst
  | receiving_step h hst T ts ih => exact receiving_state_inv _ T ts ih hst
  | generate h hm hl ih =>
    obtain ⟨hc0, hsr, hp⟩ := ih
    exact ⟨hc0, hsr, ALOHAInv_generate _ hm hp hl⟩
  | deliver h m ih =>
    obtain ⟨hc0, hsr, hp⟩ := ih
    exact ⟨hc0, hsr, ALOHAInv_receive _ m hp⟩

/-- C5 amended: across every reachable node state (any interleaving of
state-machine steps and policy operations, with positive-length application
messages and `randint` draws in `[1, 16]`), the `state_counter` is never
negative and the ALOHA backoff stays within `[0, 16]` — 0 included, because
`receive_packet` deliberately zeroes it. -/
theorem reachable_counter_bounds (n : Node) (h : Reachable n) :
    0 ≤ n.state_counter ∧
    0 ≤ n.protocol.backoff ∧ n.protocol.backoff ≤ 16 := by
  obtain ⟨hc0, _, hb0, hb16, _⟩ := reachable_nodeInv n h
  exact ⟨hc0, hb0, hb16⟩

/-- Witness for `reachable_counter_bounds` at a freshly initialised node. -/
theorem reachable_counter_bounds_witness :
    0 ≤ (Node.initial 1 0 0 [] 5).state_counter ∧
    0 ≤ (Node.initial 1 0 0 [] 5).protocol.backoff ∧
    (Node.initial 1 0 0 [] 5).protocol.backoff ≤ 16 :=
  reachable_counter_bounds _
    (Reachable.init 1 0 0 [] 5 (by norm_num) (by norm_num))

/-- C5 counterexample: the backoff is NOT always a value drawn from
`[1, 16]` — a node that has just received a data frame is reachable and has
backoff 0 (reset by `receive_packet` so the ack goes out as soon as
possible). -/
theorem backoff_outside_drawn_range_cex :
    Reachable ackPrimedNode ∧ ackPrimedNode.protocol.backoff = 0 ∧
    ¬(1 ≤ ackPrimedNode.protocol.backoff ∧
      ackPrimedNode.protocol.backoff ≤ 16) := by
  refine ⟨?_, by decide, by decide⟩
  exact Reachable.deliver
    (Reachable.init 1 0 0 [] 5 (by norm_num) (by norm_num)) mA

end AdHocSim
